import Mathlib

/-!
Verification of the Wordle scoring algorithm of `src/utils/wordleScorer.ts`.

The scorer is a pure function from the share text to either a structured
score breakdown or a descriptive format error.  We embed the input string as
a `List Char` (JavaScript `for..of` iterates Unicode code points, which is
exactly what Lean's `Char` models), and every helper of the source file as a
Lean function of the same name.  The thrown `Error` values are modelled with
`Except WordleError`, where `errorMessage` reproduces the exact message
strings built by the source.
-/

namespace WordleScore

/-- Result record returned by `scoreWordle` (interface `ScoreResult`).
Guess rows are 5-character strings in the source; we keep them as `List Char`. -/
structure ScoreResult where
  attempts : Nat
  guesses : List (List Char)
  boxScores : List Nat
  boxTotal : Nat
  guessPenalties : List Nat
  totalPenalty : Nat
  failurePenalty : Nat
  totalScore : Nat
  originalText : List Char
  deriving Repr, DecidableEq

/-- Point values for each box type (`BOX_SCORES`): black 2, yellow 1, green 0,
anything else absent from the record (`undefined`). -/
def BOX_SCORES (c : Char) : Option Nat :=
  if c = '⬛' then some 2
  else if c = '🟨' then some 1
  else if c = '🟩' then some 0
  else none

/-- Valid total box counts (`VALID_TOTALS`). -/
def VALID_TOTALS : List Nat := [5, 10, 15, 20, 25, 30]

/-- Wordle completion pattern (`COMPLETION_PATTERN` = five green boxes). -/
def COMPLETION_PATTERN : List Char := ['🟩', '🟩', '🟩', '🟩', '🟩']

/-- Constant `SCORING_CONSTANTS.BOXES_PER_GUESS`. -/
def BOXES_PER_GUESS : Nat := 5

/-- Constant `SCORING_CONSTANTS.MAX_GUESSES`. -/
def MAX_GUESSES : Nat := 6

/-- Constant `SCORING_CONSTANTS.FAILURE_PENALTY`. -/
def FAILURE_PENALTY : Nat := 10

/-- Constant `SCORING_CONSTANTS.PERFECT_SCORE_BASE`. -/
def PERFECT_SCORE_BASE : Nat := 100

/-- Function `normalizeBoxChar`: black-square aliases (white square, black circle,
brown square) normalize to the black square; yellow and green map to
themselves; everything else is `null`. -/
def normalizeBoxChar (c : Char) : Option Char :=
  if c = '⬛' ∨ c = '⬜' ∨ c = '⚫' ∨ c = '🟫' then some '⬛'
  else if c = '🟨' then some '🟨'
  else if c = '🟩' then some '🟩'
  else none

/-- Function `extractBoxes`: keep the normalization of each character that has one,
in order (the source's push-if-not-null loop). -/
def extractBoxes (shareText : List Char) : List Char :=
  shareText.filterMap normalizeBoxChar

/-- The two `Error` values thrown by `validateBoxCount`. -/
inductive WordleError where
  | noBoxPatterns : WordleError
  | invalidBoxCount : Nat → WordleError
  deriving Repr, DecidableEq

/-- The exact message strings of the two errors of `validateBoxCount`. -/
def errorMessage : WordleError → String
  | .noBoxPatterns => "Invalid Wordle format: No box patterns found"
  | .invalidBoxCount n =>
      "Invalid Wordle format: Found " ++ toString n ++
        " boxes total, but must be one of: 5, 10, 15, 20, 25, 30 (1-6 guesses)"

/-- Function `validateBoxCount`: throws on a zero count, then on a count outside
`VALID_TOTALS`; otherwise returns normally. -/
def validateBoxCount (boxCount : Nat) : Except WordleError Unit :=
  if boxCount = 0 then
    Except.error WordleError.noBoxPatterns
  else if ¬ (boxCount ∈ VALID_TOTALS) then
    Except.error (WordleError.invalidBoxCount boxCount)
  else
    Except.ok ()

/-- Function `groupBoxesIntoRows`: the source loop takes `slice(i, i + 5)` for
`i = 0, 5, 10, ...` while `i < boxes.length`, so it peels five boxes per row
(a final short row keeps whatever is left). -/
def groupBoxesIntoRows : List Char → List (List Char)
  | [] => []
  | a :: b :: c :: d :: e :: rest => [a, b, c, d, e] :: groupBoxesIntoRows rest
  | l => [l]

/-- Function `calculateBoxScore`: sum `BOX_SCORES[char]` over the guess, skipping
characters missing from the record. -/
def calculateBoxScore (guess : List Char) : Nat :=
  guess.foldl
    (fun score c =>
      match BOX_SCORES c with
      | some boxScore => score + boxScore
      | none => score)
    0

/-- Function `calculateGuessPenalty`: computes `(guessNumber - 1) * 2` past the first guess. -/
def calculateGuessPenalty (guessNumber : Nat) : Nat :=
  if guessNumber > 1 then (guessNumber - 1) * 2 else 0

/-- Function `isWordleCompleted`: the last guess equals the completion pattern. -/
def isWordleCompleted (lastGuess : List Char) : Bool :=
  decide (lastGuess = COMPLETION_PATTERN)

/-- Function `transformScore`: computes `Math.abs(100 - rawScore)` over JavaScript numbers,
here exact integers. -/
def transformScore (rawScore : Nat) : Nat :=
  ((PERFECT_SCORE_BASE : Int) - (rawScore : Int)).natAbs

/-- The success path of `scoreWordle` after `validateBoxCount` has passed:
group the boxes into rows, score each row (`lineScore`), assign each row its
guess-number penalty, accumulate both totals, check completion of the last
row (`boxLines[boxLines.length - 1]`), and apply the final transform. -/
def buildResult (shareText allBoxes : List Char) : ScoreResult :=
  let boxLines := groupBoxesIntoRows allBoxes
  let boxScores := boxLines.map calculateBoxScore
  let guessPenalties :=
    (List.range boxLines.length).map fun guessIndex =>
      calculateGuessPenalty (guessIndex + 1)
  let boxTotal := boxScores.sum
  let totalPenalty := guessPenalties.sum
  let lastGuess := boxLines.getD (boxLines.length - 1) []
  let failurePenalty := if isWordleCompleted lastGuess then 0 else FAILURE_PENALTY
  let finalPenalty := totalPenalty + failurePenalty
  let rawScore := boxTotal + finalPenalty
  { attempts := boxLines.length
    guesses := boxLines
    boxScores := boxScores
    boxTotal := boxTotal
    guessPenalties := guessPenalties
    totalPenalty := finalPenalty
    failurePenalty := failurePenalty
    totalScore := transformScore rawScore
    originalText := shareText }

/-- Function `scoreWordle`: extract the boxes (`allBoxes`), validate their count, then
build the result. -/
def scoreWordle (shareText : List Char) : Except WordleError ScoreResult :=
  match validateBoxCount (extractBoxes shareText).length with
  | .error e => .error e
  | .ok _ => .ok (buildResult shareText (extractBoxes shareText))

/-- The alias glyphs that `normalizeBoxChar` collapses to the canonical
black square (`Miss`). -/
def missAliases : List Char := ['⬛', '⬜', '⚫', '🟫']

/-- Every field of a result except `originalText`, used to state that two
inputs are scored identically apart from the echoed input text. -/
def scoreView (r : ScoreResult) :
    Nat × List (List Char) × List Nat × Nat × List Nat × Nat × Nat × Nat :=
  (r.attempts, r.guesses, r.boxScores, r.boxTotal, r.guessPenalties,
    r.totalPenalty, r.failurePenalty, r.totalScore)

/-- A perfect game: one all-green row. -/
def perfectInput : List Char := List.replicate 5 '🟩'

/-- The result of scoring the perfect game. -/
def perfectResult : ScoreResult := buildResult perfectInput (extractBoxes perfectInput)

/-- A failed two-guess game: two all-black rows. -/
def twoMissInput : List Char := List.replicate 10 '⬛'

/-- The result of scoring the failed two-guess game. -/
def twoMissResult : ScoreResult := buildResult twoMissInput (extractBoxes twoMissInput)

/-- The worst valid game: six all-black rows. -/
def worstInput : List Char := List.replicate 30 '⬛'

/-- The result of scoring the worst valid game. -/
def worstResult : ScoreResult := buildResult worstInput (extractBoxes worstInput)

/-- An over-length input: 35 black boxes (seven rows). -/
def overLongInput : List Char := List.replicate 35 '⬛'

/-- A free-text header line containing no box glyphs. -/
def headerText : List Char :=
  ['W', 'o', 'r', 'd', 'l', 'e', ' ', '1', '0', '0', ' ', '1', '/', '6', '\n']

/-! Helper lemmas about the embedded functions. -/

/-- Each character contributes at most 2 points to a box score. -/
lemma BOX_SCORES_getD_le (c : Char) : (BOX_SCORES c).getD 0 ≤ 2 := by
  unfold BOX_SCORES
  split
  · simp
  · split
    · simp
    · split <;> simp

/-- The box-score fold is the sum of per-character point values. -/
lemma calculateBoxScore_eq_sum (g : List Char) :
    calculateBoxScore g = (g.map fun c => (BOX_SCORES c).getD 0).sum := by
  suffices h : ∀ (a : Nat),
      g.foldl
        (fun score c =>
          match BOX_SCORES c with
          | some boxScore => score + boxScore
          | none => score)
        a = a + (g.map fun c => (BOX_SCORES c).getD 0).sum by
    simpa [calculateBoxScore] using h 0
  induction g with
  | nil => intro a; simp
  | cons c t ih =>
      intro a
      simp only [List.foldl_cons, List.map_cons, List.sum_cons]
      cases hb : BOX_SCORES c with
      | some v =>
          simp only [hb, Option.getD_some]
          rw [ih]
          exact Nat.add_assoc a v _
      | none =>
          simp only [hb, Option.getD_none]
          rw [ih]
          simp

/-- A guess of length `k` scores at most `2 * k` points. -/
lemma calculateBoxScore_le (g : List Char) : calculateBoxScore g ≤ 2 * g.length := by
  rw [calculateBoxScore_eq_sum]
  calc (g.map fun c => (BOX_SCORES c).getD 0).sum
      ≤ (g.map fun c => (BOX_SCORES c).getD 0).length * 2 := by
        apply List.sum_le_card_nsmul
        intro x hx
        obtain ⟨c, _, rfl⟩ := List.mem_map.mp hx
        exact BOX_SCORES_getD_le c
    _ = 2 * g.length := by simp [Nat.mul_comm]

@[simp] lemma groupBoxesIntoRows_nil : groupBoxesIntoRows [] = [] := rfl

lemma groupBoxesIntoRows_cons5 (a b c d e : Char) (rest : List Char) :
    groupBoxesIntoRows (a :: b :: c :: d :: e :: rest) =
      [a, b, c, d, e] :: groupBoxesIntoRows rest := rfl

/-- When the box count is a multiple of 5, grouping yields exactly
`count / 5` rows of exactly 5 boxes each. -/
lemma groupBoxesIntoRows_spec :
    ∀ (m : Nat) (l : List Char), l.length = 5 * m →
      (groupBoxesIntoRows l).length = m ∧ ∀ g ∈ groupBoxesIntoRows l, g.length = 5 := by
  intro m
  induction m with
  | zero =>
      intro l hl
      have hnil : l = [] := List.length_eq_zero.mp (by omega)
      subst hnil
      simp
  | succ m ih =>
      intro l hl
      rcases l with _ | ⟨a, _ | ⟨b, _ | ⟨c, _ | ⟨d, _ | ⟨e, rest⟩⟩⟩⟩⟩ <;>
        simp only [List.length_nil, List.length_cons] at hl
      · omega
      · omega
      · omega
      · omega
      · omega
      · have hr : rest.length = 5 * m := by omega
        obtain ⟨h1, h2⟩ := ih rest hr
        rw [groupBoxesIntoRows_cons5]
        refine ⟨by simp [h1], ?_⟩
        intro g hg
        rcases List.mem_cons.mp hg with rfl | hg'
        · rfl
        · exact h2 g hg'

/-- The guess-number penalty of the row at 0-based index `i` is `i * 2`. -/
lemma calculateGuessPenalty_succ (i : Nat) : calculateGuessPenalty (i + 1) = i * 2 := by
  cases i with
  | zero => rfl
  | succ k => simp [calculateGuessPenalty]

/-- The per-row penalties are `[0, 2, 4, ...]`. -/
lemma guessPenalties_eq (m : Nat) :
    ((List.range m).map fun i => calculateGuessPenalty (i + 1)) =
      (List.range m).map fun i => i * 2 := by
  apply List.map_congr_left
  intro i _
  exact calculateGuessPenalty_succ i

/-- A valid total is 5 times an attempt count between 1 and 6. -/
lemma mem_VALID_TOTALS (n : Nat) (h : n ∈ VALID_TOTALS) :
    n = 5 * (n / 5) ∧ 1 ≤ n / 5 ∧ n / 5 ≤ 6 := by
  simp only [VALID_TOTALS, List.mem_cons, List.not_mem_nil, or_false] at h
  rcases h with rfl | rfl | rfl | rfl | rfl | rfl <;> decide

/-- `validateBoxCount` succeeds exactly on the valid totals. -/
lemma validateBoxCount_ok_iff (n : Nat) :
    validateBoxCount n = Except.ok () ↔ n ∈ VALID_TOTALS := by
  unfold validateBoxCount
  by_cases h0 : n = 0
  · subst h0
    simp [VALID_TOTALS]
  · by_cases hm : n ∈ VALID_TOTALS <;> simp [h0, hm]

lemma validateBoxCount_zero : validateBoxCount 0 = Except.error WordleError.noBoxPatterns := rfl

lemma validateBoxCount_invalid (n : Nat) (h0 : n ≠ 0) (hm : n ∉ VALID_TOTALS) :
    validateBoxCount n = Except.error (WordleError.invalidBoxCount n) := by
  unfold validateBoxCount
  simp [h0, hm]

/-- Inversion principle for successful scoring. -/
lemma scoreWordle_ok_iff (s : List Char) (r : ScoreResult) :
    scoreWordle s = Except.ok r ↔
      ((extractBoxes s).length ∈ VALID_TOTALS ∧ r = buildResult s (extractBoxes s)) := by
  unfold scoreWordle
  rcases hv : validateBoxCount (extractBoxes s).length with e | u
  · have hmem : (extractBoxes s).length ∉ VALID_TOTALS := by
      intro hm
      have hok := (validateBoxCount_ok_iff _).mpr hm
      rw [hv] at hok
      exact Except.noConfusion hok
    simp [hmem]
  · cases u
    have hmem : (extractBoxes s).length ∈ VALID_TOTALS := (validateBoxCount_ok_iff _).mp hv
    simp [hmem, eq_comm]

/-- Inversion principle for failing scoring. -/
lemma scoreWordle_error_iff (s : List Char) (e : WordleError) :
    scoreWordle s = Except.error e ↔
      validateBoxCount (extractBoxes s).length = Except.error e := by
  unfold scoreWordle
  rcases hv : validateBoxCount (extractBoxes s).length with e' | u <;> simp

/-! Field computations of `buildResult` (all definitional). -/

lemma buildResult_attempts (s b : List Char) :
    (buildResult s b).attempts = (groupBoxesIntoRows b).length := rfl

lemma buildResult_guesses (s b : List Char) :
    (buildResult s b).guesses = groupBoxesIntoRows b := rfl

lemma buildResult_boxScores (s b : List Char) :
    (buildResult s b).boxScores = (groupBoxesIntoRows b).map calculateBoxScore := rfl

lemma buildResult_guessPenalties (s b : List Char) :
    (buildResult s b).guessPenalties =
      ((List.range (groupBoxesIntoRows b).length).map fun guessIndex =>
        calculateGuessPenalty (guessIndex + 1)) := rfl

lemma buildResult_boxTotal (s b : List Char) :
    (buildResult s b).boxTotal = (buildResult s b).boxScores.sum := rfl

lemma buildResult_failurePenalty (s b : List Char) :
    (buildResult s b).failurePenalty =
      if isWordleCompleted
          ((groupBoxesIntoRows b).getD ((groupBoxesIntoRows b).length - 1) [])
        then 0 else FAILURE_PENALTY := rfl

lemma buildResult_totalPenalty (s b : List Char) :
    (buildResult s b).totalPenalty =
      (buildResult s b).guessPenalties.sum + (buildResult s b).failurePenalty := rfl

lemma buildResult_totalScore (s b : List Char) :
    (buildResult s b).totalScore =
      transformScore ((buildResult s b).boxTotal + (buildResult s b).totalPenalty) := rfl

lemma buildResult_originalText (s b : List Char) :
    (buildResult s b).originalText = s := rfl

/-- The failure penalty is 0 or 10. -/
lemma failurePenalty_cases (s b : List Char) :
    (buildResult s b).failurePenalty = 0 ∨ (buildResult s b).failurePenalty = 10 := by
  rw [buildResult_failurePenalty]
  split
  · exact Or.inl rfl
  · exact Or.inr rfl

/-- The sum of the first `m` even numbers is at most 30 when `m ≤ 6`. -/
lemma sum_penalties_le (m : Nat) (hm : m ≤ 6) :
    (((List.range m).map fun i => i * 2).sum) ≤ 30 := by
  interval_cases m <;> decide

/-- Every successful score has raw score (box total plus final penalty) at
most 100: at most 6 rows of at most 10 points, at most 30 points of guess
penalties, and at most 10 points of failure penalty. -/
lemma raw_le_100 (s : List Char) (r : ScoreResult) (h : scoreWordle s = Except.ok r) :
    r.boxTotal + r.totalPenalty ≤ 100 := by
  obtain ⟨hm, rfl⟩ := (scoreWordle_ok_iff s r).mp h
  obtain ⟨hn5, h1, h6⟩ := mem_VALID_TOTALS _ hm
  obtain ⟨hlen, hrows⟩ := groupBoxesIntoRows_spec _ _ hn5
  have hbt : (buildResult s (extractBoxes s)).boxTotal ≤ 10 * ((extractBoxes s).length / 5) := by
    rw [buildResult_boxTotal, buildResult_boxScores]
    calc ((groupBoxesIntoRows (extractBoxes s)).map calculateBoxScore).sum
        ≤ ((groupBoxesIntoRows (extractBoxes s)).map calculateBoxScore).length * 10 := by
          apply List.sum_le_card_nsmul
          intro x hx
          obtain ⟨g, hg, rfl⟩ := List.mem_map.mp hx
          have hb := calculateBoxScore_le g
          rw [hrows g hg] at hb
          omega
      _ = 10 * ((extractBoxes s).length / 5) := by
          rw [List.length_map, hlen, Nat.mul_comm]
  have hgp : (buildResult s (extractBoxes s)).guessPenalties.sum ≤ 30 := by
    rw [buildResult_guessPenalties, hlen, guessPenalties_eq]
    exact sum_penalties_le _ h6
  have hfp : (buildResult s (extractBoxes s)).failurePenalty ≤ 10 := by
    rcases failurePenalty_cases s (extractBoxes s) with he | he <;> omega
  rw [buildResult_totalPenalty]
  omega

/-- The transform maps raw scores at most 100 into the interval `[0, 100]`. -/
lemma transformScore_le (raw : Nat) (h : raw ≤ 100) : transformScore raw ≤ 100 := by
  unfold transformScore PERFECT_SCORE_BASE
  omega

/-! Extraction lemmas. -/

lemma extractBoxes_append (s t : List Char) :
    extractBoxes (s ++ t) = extractBoxes s ++ extractBoxes t := by
  unfold extractBoxes
  exact List.filterMap_append s t normalizeBoxChar

/-- Characters without a normalization contribute no boxes. -/
lemma extractBoxes_eq_nil (t : List Char) (h : ∀ c ∈ t, normalizeBoxChar c = none) :
    extractBoxes t = [] := by
  unfold extractBoxes
  induction t with
  | nil => rfl
  | cons c rest ih =>
      rw [List.filterMap_cons, h c (List.mem_cons_self c rest)]
      exact ih fun d hd => h d (List.mem_cons_of_mem c hd)

/-- All four Miss aliases normalize to the canonical black square. -/
lemma normalizeBoxChar_alias : ∀ c ∈ missAliases, normalizeBoxChar c = some '⬛' := by
  decide

/-- Two inputs with the same extracted boxes are scored identically apart
from `originalText`. -/
lemma scoreWordle_congr (s₁ s₂ : List Char) (h : extractBoxes s₁ = extractBoxes s₂) :
    (scoreWordle s₁).map scoreView = (scoreWordle s₂).map scoreView := by
  unfold scoreWordle
  rw [h]
  rcases hv : validateBoxCount (extractBoxes s₂).length with e | u
  · rfl
  · rfl

/-- The two failure messages differ in wording: after the common prefix
`Invalid Wordle format: `, one continues with `No box patterns found` and
the other with `Found ...`, so they differ at character index 23. -/
lemma errorMessage_ne (n : Nat) :
    errorMessage WordleError.noBoxPatterns ≠ errorMessage (WordleError.invalidBoxCount n) := by
  intro h
  have hd := congrArg String.data h
  simp only [errorMessage] at hd
  rw [String.data_append, String.data_append] at hd
  have h23 := congrArg (fun l => l[23]?) hd
  dsimp only at h23
  have hlen1 : (23 : Nat) < ("Invalid Wordle format: Found ".data).length := by decide
  have hlen2 : (23 : Nat) <
      (("Invalid Wordle format: Found ".data) ++ (toString n).data).length := by
    rw [List.length_append]
    omega
  rw [List.getElem?_append_left hlen2, List.getElem?_append_left hlen1] at h23
  have e1 : ("Invalid Wordle format: No box patterns found".data)[23]? = some 'N' := by decide
  have e2 : ("Invalid Wordle format: Found ".data)[23]? = some 'F' := by decide
  rw [e1, e2] at h23
  exact absurd (Option.some.inj h23) (by decide)

/-! Claim theorems. -/

/-- Claim C10: for an input of exactly 5 Hit glyphs, `scoreWordle` returns
`attempts = 1`, `boxTotal = 0`, `totalPenalty = 0`, `failurePenalty = 0`,
and `totalScore = 100`. -/
theorem claim_C10 :
    (scoreWordle perfectInput).map
        (fun r => (r.attempts, r.boxTotal, r.totalPenalty, r.failurePenalty, r.totalScore)) =
      Except.ok (1, 0, 0, 0, 100) := by
  rfl

/-- Claim C4: for an input of exactly two all-Miss rows (10 Miss glyphs),
`scoreWordle` returns `failurePenalty = 10`, `totalPenalty = 12`,
`boxTotal = 20`, raw score `boxTotal + totalPenalty = 32`, and
`totalScore = 68`. -/
theorem claim_C4 :
    (scoreWordle twoMissInput).map
        (fun r => (r.failurePenalty, r.totalPenalty, r.boxTotal,
          r.boxTotal + r.totalPenalty, r.totalScore)) =
      Except.ok (10, 12, 20, 32, 68) := by
  rfl

/-- Claim C2: on every successfully scored input the raw score
`boxTotal + totalPenalty` is at most 100, and hence
`totalScore = abs(100 - rawScore)` lies in `[0, 100]` (it is a `Nat`, so
only the upper bound is non-trivial). -/
theorem claim_C2 (s : List Char) (r : ScoreResult) (h : scoreWordle s = Except.ok r) :
    r.boxTotal + r.totalPenalty ≤ 100 ∧ r.totalScore ≤ 100 := by
  have hraw := raw_le_100 s r h
  refine ⟨hraw, ?_⟩
  obtain ⟨hm, rfl⟩ := (scoreWordle_ok_iff s r).mp h
  rw [buildResult_totalScore]
  exact transformScore_le _ hraw

/-- Witness for claim C2 at the worst valid input (six all-Miss rows). -/
theorem claim_C2_witness :
    worstResult.boxTotal + worstResult.totalPenalty ≤ 100 ∧ worstResult.totalScore ≤ 100 :=
  claim_C2 worstInput worstResult rfl

/-- Claim C1, refutation: no input whatsoever can make `scoreWordle`
return a `totalScore` above 100, contrary to the claimed existence of such
an input. -/
theorem claim_C1_counterexample :
    ¬ ∃ (s : List Char) (r : ScoreResult),
        scoreWordle s = Except.ok r ∧ 100 < r.totalScore := by
  rintro ⟨s, r, h, hgt⟩
  have hraw := raw_le_100 s r h
  obtain ⟨hm, rfl⟩ := (scoreWordle_ok_iff s r).mp h
  rw [buildResult_totalScore] at hgt
  have hle := transformScore_le _ hraw
  omega

/-- Claim C1, amended: the final transform is the unclamped reflection
`totalScore = abs(100 - rawScore)` with `rawScore = boxTotal + totalPenalty`
(the failure penalty already included in `totalPenalty`), but the raw score
of a successfully scored input never exceeds 100, so `totalScore` never
exceeds 100 either. -/
theorem claim_C1_amended (s : List Char) (r : ScoreResult) (h : scoreWordle s = Except.ok r) :
    r.totalScore = ((100 : Int) - ((r.boxTotal + r.totalPenalty : Nat) : Int)).natAbs ∧
      r.boxTotal + r.totalPenalty ≤ 100 ∧ r.totalScore ≤ 100 := by
  have hraw := raw_le_100 s r h
  obtain ⟨hm, rfl⟩ := (scoreWordle_ok_iff s r).mp h
  refine ⟨rfl, hraw, ?_⟩
  rw [buildResult_totalScore]
  exact transformScore_le _ hraw

/-- Witness for the amended claim C1 at the worst valid input. -/
theorem claim_C1_witness :
    worstResult.totalScore =
        ((100 : Int) - ((worstResult.boxTotal + worstResult.totalPenalty : Nat) : Int)).natAbs ∧
      worstResult.boxTotal + worstResult.totalPenalty ≤ 100 ∧ worstResult.totalScore ≤ 100 :=
  claim_C1_amended worstInput worstResult rfl

/-- Claim C5: on every successfully scored input with `attempts = a`, the
returned `guessPenalties` is exactly the length-`a` prefix of
`[0, 2, 4, 6, 8, 10]`, that is, the penalty of the row at 0-based index `i`
is `i * 2`. -/
theorem claim_C5 (s : List Char) (r : ScoreResult) (h : scoreWordle s = Except.ok r) :
    r.guessPenalties = [0, 2, 4, 6, 8, 10].take r.attempts ∧
      ∀ (i : Nat) (hi : i < r.guessPenalties.length), r.guessPenalties[i] = i * 2 := by
  obtain ⟨hm, rfl⟩ := (scoreWordle_ok_iff s r).mp h
  obtain ⟨hn5, h1, h6⟩ := mem_VALID_TOTALS _ hm
  obtain ⟨hlen, -⟩ := groupBoxesIntoRows_spec _ _ hn5
  rw [buildResult_guessPenalties, buildResult_attempts, hlen, guessPenalties_eq]
  constructor
  · set m := (extractBoxes s).length / 5 with hmdef
    clear_value m
    interval_cases m <;> decide
  · intro i hi
    have hi' : i < (extractBoxes s).length / 5 := by simpa using hi
    simp [List.getElem_map]

/-- Witness for claim C5 at the failed two-guess game. -/
theorem claim_C5_witness :
    twoMissResult.guessPenalties = [0, 2, 4, 6, 8, 10].take twoMissResult.attempts ∧
      ∀ (i : Nat) (hi : i < twoMissResult.guessPenalties.length),
        twoMissResult.guessPenalties[i] = i * 2 :=
  claim_C5 twoMissInput twoMissResult rfl

/-- Claim C6: on every successfully scored input, `failurePenalty` is 10
when the last row differs from the all-Hit pattern and 0 when it equals it;
it is a function of the last row's content only, and takes no value other
than 0 or 10. -/
theorem claim_C6 (s : List Char) (r : ScoreResult) (h : scoreWordle s = Except.ok r) :
    r.failurePenalty =
        (if r.guesses.getD (r.guesses.length - 1) [] = COMPLETION_PATTERN then 0 else 10) ∧
      (r.failurePenalty = 0 ∨ r.failurePenalty = 10) := by
  obtain ⟨hm, rfl⟩ := (scoreWordle_ok_iff s r).mp h
  refine ⟨?_, failurePenalty_cases s _⟩
  rw [buildResult_failurePenalty, buildResult_guesses]
  simp only [isWordleCompleted, FAILURE_PENALTY, decide_eq_true_eq]

/-- Witness for claim C6 at the failed two-guess game. -/
theorem claim_C6_witness :
    twoMissResult.failurePenalty =
        (if twoMissResult.guesses.getD (twoMissResult.guesses.length - 1) [] = COMPLETION_PATTERN
          then 0 else 10) ∧
      (twoMissResult.failurePenalty = 0 ∨ twoMissResult.failurePenalty = 10) :=
  claim_C6 twoMissInput twoMissResult rfl

/-- Claim C9: every successful result satisfies the structural invariants:
`attempts` is between 1 and 6 and equals the extracted box count divided by
5, the `boxScores`, `guessPenalties`, and `guesses` sequences all have
length `attempts`, every guess row has exactly 5 boxes, `boxTotal` sums
`boxScores`, `totalPenalty` is the sum of `guessPenalties` plus the failure
penalty, and `originalText` echoes the input unchanged. -/
theorem claim_C9 (s : List Char) (r : ScoreResult) (h : scoreWordle s = Except.ok r) :
    (1 ≤ r.attempts ∧ r.attempts ≤ 6) ∧
      r.attempts = (extractBoxes s).length / 5 ∧
      r.boxScores.length = r.attempts ∧
      r.guessPenalties.length = r.attempts ∧
      r.guesses.length = r.attempts ∧
      (∀ g ∈ r.guesses, g.length = 5) ∧
      r.boxTotal = r.boxScores.sum ∧
      r.totalPenalty = r.guessPenalties.sum + r.failurePenalty ∧
      r.originalText = s := by
  obtain ⟨hm, rfl⟩ := (scoreWordle_ok_iff s r).mp h
  obtain ⟨hn5, h1, h6⟩ := mem_VALID_TOTALS _ hm
  obtain ⟨hlen, hrows⟩ := groupBoxesIntoRows_spec _ _ hn5
  refine ⟨?_, ?_, ?_, ?_, ?_, ?_, rfl, rfl, rfl⟩
  · rw [buildResult_attempts, hlen]
    exact ⟨h1, h6⟩
  · rw [buildResult_attempts, hlen]
  · rw [buildResult_boxScores, buildResult_attempts]
    simp
  · rw [buildResult_guessPenalties, buildResult_attempts]
    simp
  · rw [buildResult_guesses, buildResult_attempts]
  · rw [buildResult_guesses]
    exact hrows

/-- Witness for claim C9 at the failed two-guess game. -/
theorem claim_C9_witness :
    (1 ≤ twoMissResult.attempts ∧ twoMissResult.attempts ≤ 6) ∧
      twoMissResult.attempts = (extractBoxes twoMissInput).length / 5 ∧
      twoMissResult.boxScores.length = twoMissResult.attempts ∧
      twoMissResult.guessPenalties.length = twoMissResult.attempts ∧
      twoMissResult.guesses.length = twoMissResult.attempts ∧
      (∀ g ∈ twoMissResult.guesses, g.length = 5) ∧
      twoMissResult.boxTotal = twoMissResult.boxScores.sum ∧
      twoMissResult.totalPenalty = twoMissResult.guessPenalties.sum + twoMissResult.failurePenalty ∧
      twoMissResult.originalText = twoMissInput :=
  claim_C9 twoMissInput twoMissResult rfl

/-- Claim C3: `scoreWordle` fails exactly when the extracted box count is
not in `{5, 10, 15, 20, 25, 30}`; a zero count produces the
no-box-patterns message, any other invalid count produces the message
citing the found count and the accepted set, the two messages differ in
wording, and every count in the set scores successfully. -/
theorem claim_C3 (s : List Char) :
    ((∃ e, scoreWordle s = Except.error e) ↔ (extractBoxes s).length ∉ VALID_TOTALS) ∧
      ((extractBoxes s).length = 0 →
        scoreWordle s = Except.error WordleError.noBoxPatterns) ∧
      ((extractBoxes s).length ≠ 0 → (extractBoxes s).length ∉ VALID_TOTALS →
        scoreWordle s = Except.error (WordleError.invalidBoxCount (extractBoxes s).length)) ∧
      errorMessage WordleError.noBoxPatterns = "Invalid Wordle format: No box patterns found" ∧
      (∀ k : Nat, errorMessage (WordleError.invalidBoxCount k) =
        "Invalid Wordle format: Found " ++ toString k ++
          " boxes total, but must be one of: 5, 10, 15, 20, 25, 30 (1-6 guesses)") ∧
      (∀ k : Nat,
        errorMessage WordleError.noBoxPatterns ≠ errorMessage (WordleError.invalidBoxCount k)) ∧
      ((extractBoxes s).length ∈ VALID_TOTALS → ∃ r, scoreWordle s = Except.ok r) := by
  refine ⟨⟨?_, ?_⟩, ?_, ?_, rfl, fun k => rfl, errorMessage_ne, ?_⟩
  · rintro ⟨e, he⟩ hmem
    have hok := (scoreWordle_ok_iff s (buildResult s (extractBoxes s))).mpr ⟨hmem, rfl⟩
    rw [hok] at he
    exact Except.noConfusion he
  · intro hmem
    by_cases h0 : (extractBoxes s).length = 0
    · exact ⟨WordleError.noBoxPatterns,
        (scoreWordle_error_iff s WordleError.noBoxPatterns).mpr
          (by rw [h0]; exact validateBoxCount_zero)⟩
    · exact ⟨_, (scoreWordle_error_iff s _).mpr (validateBoxCount_invalid _ h0 hmem)⟩
  · intro h0
    apply (scoreWordle_error_iff s _).mpr
    rw [h0]
    exact validateBoxCount_zero
  · intro h0 hmem
    exact (scoreWordle_error_iff s _).mpr (validateBoxCount_invalid _ h0 hmem)
  · intro hmem
    exact ⟨_, (scoreWordle_ok_iff s _).mpr ⟨hmem, rfl⟩⟩

/-- Witness for claim C3: a glyph-free input yields the no-box message, 35
boxes yield the count-citing message, the two messages differ, and the
perfect game succeeds. -/
theorem claim_C3_witness :
    scoreWordle ['a'] = Except.error WordleError.noBoxPatterns ∧
      scoreWordle overLongInput = Except.error (WordleError.invalidBoxCount 35) ∧
      errorMessage WordleError.noBoxPatterns ≠ errorMessage (WordleError.invalidBoxCount 35) ∧
      (∃ r, scoreWordle perfectInput = Except.ok r) :=
  ⟨(claim_C3 ['a']).2.1 (by decide),
    (claim_C3 overLongInput).2.2.1 (by decide) (by decide),
    (claim_C3 overLongInput).2.2.2.2.2.1 35,
    (claim_C3 perfectInput).2.2.2.2.2.2 (by decide)⟩

/-- Claim C7: replacing one occurrence of a Miss-alias glyph (black square,
white square, black circle, or brown square) by any other alias yields a
result with identical `boxScores`, `guesses`, and `totalScore` (and an
identical error when the input is invalid). -/
theorem claim_C7 (a b : List Char) (c₁ c₂ : Char)
    (h₁ : c₁ ∈ missAliases) (h₂ : c₂ ∈ missAliases) :
    (scoreWordle (a ++ c₁ :: b)).map (fun r => (r.boxScores, r.guesses, r.totalScore)) =
      (scoreWordle (a ++ c₂ :: b)).map (fun r => (r.boxScores, r.guesses, r.totalScore)) := by
  have hx : extractBoxes (a ++ c₁ :: b) = extractBoxes (a ++ c₂ :: b) := by
    rw [extractBoxes_append, extractBoxes_append]
    congr 1
    show (c₁ :: b).filterMap normalizeBoxChar = (c₂ :: b).filterMap normalizeBoxChar
    rw [List.filterMap_cons, List.filterMap_cons,
      normalizeBoxChar_alias c₁ h₁, normalizeBoxChar_alias c₂ h₂]
  have hcongr := scoreWordle_congr _ _ hx
  rcases hs₁ : scoreWordle (a ++ c₁ :: b) with e₁ | r₁ <;>
    rcases hs₂ : scoreWordle (a ++ c₂ :: b) with e₂ | r₂ <;>
      rw [hs₁, hs₂] at hcongr <;>
      simp_all [scoreView, Except.map]

/-- Witness for claim C7: a white square and a black circle heading four
green boxes score identically. -/
theorem claim_C7_witness :
    (scoreWordle ([] ++ '⬜' :: List.replicate 4 '🟩')).map
        (fun r => (r.boxScores, r.guesses, r.totalScore)) =
      (scoreWordle ([] ++ '⚫' :: List.replicate 4 '🟩')).map
        (fun r => (r.boxScores, r.guesses, r.totalScore)) :=
  claim_C7 [] (List.replicate 4 '🟩') '⬜' '⚫' (by decide) (by decide)

/-- Claim C8: characters that are not recognized box glyphs are discarded
during extraction without error: inserting non-glyph text anywhere changes
no field of the result except `originalText`. -/
theorem claim_C8 (a t b : List Char) (h : ∀ c ∈ t, normalizeBoxChar c = none) :
    (scoreWordle (a ++ t ++ b)).map scoreView = (scoreWordle (a ++ b)).map scoreView := by
  apply scoreWordle_congr
  rw [extractBoxes_append, extractBoxes_append, extractBoxes_eq_nil t h, List.append_nil]
  exact (extractBoxes_append a b).symm

/-- Witness for claim C8: a leading free-text header line does not change
the score of the perfect game. -/
theorem claim_C8_witness :
    (scoreWordle ([] ++ headerText ++ perfectInput)).map scoreView =
      (scoreWordle ([] ++ perfectInput)).map scoreView :=
  claim_C8 [] headerText perfectInput (by decide)

end WordleScore
